import Mathlib

/-
Shallow embedding of the ai-job-hunter matching pipeline.

Sources embedded:
  src/data_models.py   (JobListing, JobMatch)
  src/config.py        (the Settings fields the pipeline reads)
  src/llm_handler.py   (GeminiClient.score_job result handling and clamping)
  src/matcher.py       (JobMatcher: seen-set store, location filtering,
                        cover-letter generation, and the run() loop)
  src/main.py          (the export phase after run() returns)

External collaborators (Selenium scraping, the Gemini HTTP API, Nominatim
geocoding, geodesic distance, the filesystem, wall-clock time) are modelled
as oracles collected in an Env record; each oracle's result type mirrors the
outcomes the Python code distinguishes (success payloads, the exception
classes it catches, and the ones it lets propagate).
-/

namespace AIJobHunter

/-- Coordinates as returned by geocoding: (latitude, longitude). -/
abbrev Coord := Rat × Rat

/-- data_models.JobListing: job listing metadata parsed from the CSV feed. -/
structure JobListing where
  title : String
  company : String
  category : String
  size : String
  level : String
  city : String
  url : String
  updated : String
deriving DecidableEq

/-- data_models.JobMatch: result of LLM evaluation for a single job.
Python floats are modelled as rationals; cover_letter_path as an optional
path string. -/
structure JobMatch where
  listing : JobListing
  score : Rat
  rationale : String
  description : String
  cover_letter_path : Option String
  distance_km : Option Rat
deriving DecidableEq

/-- The fields of config.Settings that the pipeline (matcher.py / main.py)
reads.  max_distance_km and target_location are optional exactly as in the
dataclass. -/
structure Settings where
  score_threshold : Rat
  cover_letters : Bool
  rescan_all_jobs : Bool
  save_html : Bool
  target_location : Option String
  max_distance_km : Option Rat
  cover_letter_dir : String
deriving DecidableEq

/-- Outcome of web_scraper.fetch_job_description for one URL.
The matcher at matcher.py:149-153 catches requests.RequestException only;
the Selenium-based fetcher re-raises WebDriverException and any other
exception (web_scraper.py:305-310), which the matcher does not catch.  So
three outcomes are distinguishable to the caller:
  ok        - returns (description, requirements)
  reqExn    - a requests.RequestException propagates (caught at matcher.py:151)
  otherExn  - WebDriverException or any other exception propagates (uncaught
              in run(), aborts the run). -/
inductive FetchResult where
  | ok (description : String) (requirements : List String)
  | reqExn
  | otherExn
deriving DecidableEq

/-- Upstream model response classes distinguished by GeminiClient.score_job
(llm_handler.py:200-277).  Every branch except a parsed numeric score
returns None:
  empty           - blank response text (llm_handler.py:232-234)
  noJson          - no JSON object found in the text (239-246)
  badJson         - json.loads raised (248-253)
  missingScore    - parsed object lacks a "score" field (256-258)
  nonNumericScore - float(...) conversion raised (260-266)
  exn             - any exception during the request (274-277)
  scored v s r    - a numeric score v was parsed, with optional "summary"
                    and "rationale" fields of the returned dict. -/
inductive LLMResponse where
  | empty
  | noJson
  | badJson
  | missingScore
  | nonNumericScore
  | exn
  | scored (v : Rat) (summary : String) (rationale : Option String)
deriving DecidableEq

/-- The dictionary score_job returns to the matcher, restricted to the keys
the matcher reads: "score" (clamped), "summary", "rationale". -/
structure ScorePayload where
  score : Rat
  summary : String
  rationale : Option String
deriving DecidableEq

/-- Oracles for the external collaborators, fixed for one run. -/
structure Env where
  /-- Nominatim geocode of a place-name string; none models "not found" or
  a raised exception (both give None in _get_location_distance). -/
  geocode : String → Option Coord
  /-- geopy geodesic distance in kilometers. -/
  geodesic : Coord → Coord → Rat
  /-- fetch_job_description outcome per listing. -/
  fetchResult : JobListing → FetchResult
  /-- the Gemini response class for score_job on this listing's description. -/
  llmResponse : JobListing → LLMResponse
  /-- GeminiClient.generate_cover_letter result; none on failure. -/
  letterText : JobListing → Option String
  /-- whether output_path.write_text in _generate_cover_letter_pdf succeeds. -/
  writeOk : JobListing → Bool
  /-- datetime.now() formatted as in _generate_cover_letter_pdf. -/
  timestamp : String

/-- llm_handler.py:271: data["score"] = max(0.0, min(100.0, score)). -/
def clampScore (v : Rat) : Rat := max 0 (min 100 v)

/-- GeminiClient.score_job (llm_handler.py:161-277) reduced to its outcome
structure: every failure class returns none; a parsed numeric score is
clamped into [0,100] and returned with the summary/rationale fields. -/
def score_job : LLMResponse → Option ScorePayload
  | .scored v summary rationale => some ⟨clampScore v, summary, rationale⟩
  | _ => none

/-- The states of the scanned_urls.json file that
JobMatcher._load_scanned_urls (matcher.py:50-60) distinguishes:
missing file, content whose parsing raises, or a parsed JSON object whose
"urls" key is optional (data.get("urls", [])). -/
inductive LoadSource where
  | missing
  | malformed
  | valid (urls : Option (List String))
deriving DecidableEq

/-- JobMatcher._load_scanned_urls (matcher.py:50-60): missing file and any
parse failure both yield the empty set (with a logged warning). -/
def _load_scanned_urls : LoadSource → List String
  | .missing => []
  | .malformed => []
  | .valid urls => urls.getD []

/-- JobMatcher._initialize_location_filtering (matcher.py:71-88): the guard
`if not self.settings.target_location or not self.settings.max_distance_km`
uses Python truthiness, so a missing or empty target string, or a missing or
zero max distance, leaves target_coords = None; otherwise the target is
geocoded and a failed geocode also leaves target_coords = None. -/
def init_location_filtering (target_location : Option String)
    (max_distance_km : Option Rat) (geocode : String → Option Coord) :
    Option Coord :=
  match target_location, max_distance_km with
  | some loc, some dmax =>
    if loc = "" then none
    else if dmax = 0 then none
    else geocode loc
  | _, _ => none

/-- JobMatcher._get_location_distance (matcher.py:90-115): None when no
target coordinates, when the job location fails to geocode, or when the
geocoder raises; otherwise the geodesic distance in km. -/
def _get_location_distance (tc : Option Coord) (env : Env)
    (job_location : String) : Option Rat :=
  match tc with
  | none => none
  | some t =>
    match env.geocode job_location with
    | none => none
    | some c => some (env.geodesic t c)

/-- Splits a character list on whitespace runs, dropping empty pieces, as
Python str.split() with no argument does. -/
def splitWordsAux : List Char → List Char → List (List Char)
  | [], acc => if acc.isEmpty then [] else [acc.reverse]
  | c :: cs, acc =>
    if c.isWhitespace then
      if acc.isEmpty then splitWordsAux cs []
      else acc.reverse :: splitWordsAux cs []
    else splitWordsAux cs (c :: acc)

/-- Python str.split() with no argument, as a list of words. -/
def pyWords (s : String) : List String :=
  (splitWordsAux s.toList []).map (fun w => String.mk w)

/-- "_".join(s.split()) or dflt, as used at matcher.py:253-254. -/
def pySplitJoin (s : String) (dflt : String) : String :=
  let parts := pyWords s
  if parts.isEmpty then dflt else String.intercalate "_" parts

/-- The cover-letter filename built at matcher.py:253-256. -/
def coverFilename (l : JobListing) (timestamp : String) : String :=
  pySplitJoin l.title "job" ++ "_" ++ pySplitJoin l.company "company"
    ++ "_" ++ timestamp ++ ".txt"

/-- JobMatcher._generate_cover_letter_pdf (matcher.py:226-293): none when
the Letter Generator returns nothing (250-251) or when writing the text
file raises (291-293); otherwise the output path.  The file artifact is
created exactly when this returns some path, because write_text is the only
file operation and a raised write returns None. -/
def _generate_cover_letter_pdf (S : Settings) (env : Env) (l : JobListing) :
    Option String :=
  match env.letterText l with
  | none => none
  | some _ =>
    if env.writeOk l then
      some (S.cover_letter_dir ++ "/" ++ coverFilename l env.timestamp)
    else none

/-- Observable invocations of the external collaborators made by the loop
body of JobMatcher.run, each tagged with the posting URL of the iteration
that made it.  sleep records the fixed time.sleep(0.5) at matcher.py:213. -/
inductive Event where
  | fetch (url : String)
  | score (url : String)
  | analyze (url : String)
  | letter (url : String)
  | sleep (url : String)
deriving DecidableEq

/-- In-memory state threaded through the loop of JobMatcher.run:
self.seen_urls, all_jobs, matches (the above-threshold list), the
cover-letter files written so far as (posting url, path) pairs, and the
event trace. -/
structure RunState where
  seen : List String
  all_jobs : List JobMatch
  matchesAbove : List JobMatch
  letters : List (String × String)
  events : List Event
deriving DecidableEq

/-- Python set add: self.seen_urls.add(listing.url) at matcher.py:211. -/
def insertSeen (u : String) (s : List String) : List String :=
  if u ∈ s then s else s ++ [u]

/-- matcher.py:174-177: explanation is the payload's "summary" if non-empty,
else "rationale", else a fallback string mentioning the score (float
formatting abstracted to toString). -/
def explanationOf (p : ScorePayload) : String :=
  if p.summary ≠ "" then p.summary
  else p.rationale.getD ("Match score: " ++ toString p.score)

/-- The distance step at matcher.py:142-147.
none            - skip this posting (geocode failed or distance > max)
some none       - proceed, distance not computed (guard falsy: no target
                  coordinates, or max_distance_km absent or zero)
some (some d)   - proceed with distance d recorded. -/
def distanceGate (S : Settings) (env : Env) (tc : Option Coord)
    (city : String) : Option (Option Rat) :=
  match tc, S.max_distance_km with
  | some t, some dmax =>
    if dmax = 0 then some none
    else
      match _get_location_distance (some t) env city with
      | none => none
      | some d => if dmax < d then none else some (some d)
  | _, _ => some none

/-- How one iteration of the run() loop ends, decided by the checks at
matcher.py:137-158 in order. -/
inductive StepOutcome where
  | skipDedup
  | skipDistance
  | fetchFailCaught
  | fetchFailUncaught
  | scoreFail
  | processed (m : JobMatch) (analyzed : Bool)
deriving DecidableEq

/-- The decision logic of one iteration of JobMatcher.run
(matcher.py:137-211), which depends on the mutable state only through the
current seen-url set. -/
def stepOf (S : Settings) (env : Env) (tc : Option Coord)
    (seen : List String) (l : JobListing) : StepOutcome :=
  if S.rescan_all_jobs = false ∧ l.url ∈ seen then .skipDedup
  else
    match distanceGate S env tc l.city with
    | none => .skipDistance
    | some distance_km =>
      match env.fetchResult l with
      | .reqExn => .fetchFailCaught
      | .otherExn => .fetchFailUncaught
      | .ok description requirements =>
        match score_job (env.llmResponse l) with
        | none => .scoreFail
        | some payload =>
          let cover_path : Option String :=
            if S.score_threshold ≤ payload.score ∧ S.cover_letters = true
            then _generate_cover_letter_pdf S env l
            else none
          .processed
            ⟨l, payload.score, explanationOf payload, description,
              cover_path, distance_km⟩
            (!requirements.isEmpty)

/-- The collaborator invocations one iteration performs, per outcome, in
source order: fetch (150), score (155), analyze_requirements (169, only
when requirements were extracted), generate_cover_letter (183, only above
threshold with cover letters enabled), time.sleep (213). -/
def stepEvents (S : Settings) (l : JobListing) : StepOutcome → List Event
  | .skipDedup => []
  | .skipDistance => []
  | .fetchFailUncaught => []
  | .fetchFailCaught => [.fetch l.url]
  | .scoreFail => [.fetch l.url, .score l.url]
  | .processed m analyzed =>
    [.fetch l.url, .score l.url]
      ++ (if analyzed then [.analyze l.url] else [])
      ++ (if S.score_threshold ≤ m.score ∧ S.cover_letters = true
          then [.letter l.url] else [])
      ++ [.sleep l.url]

/-- State mutation of one iteration (matcher.py:179-213): above-threshold
postings are also appended to matches; a written letter is recorded; every
processed posting is appended to all_jobs and its URL marked seen. -/
def stepState (S : Settings) (st : RunState) (l : JobListing) :
    StepOutcome → RunState
  | .processed m analyzed =>
    { seen := insertSeen l.url st.seen
      all_jobs := st.all_jobs ++ [m]
      matchesAbove := st.matchesAbove
        ++ (if S.score_threshold ≤ m.score then [m] else [])
      letters := st.letters
        ++ (match m.cover_letter_path with
            | some p => [(l.url, p)]
            | none => [])
      events := st.events ++ stepEvents S l (.processed m analyzed) }
  | s => { st with events := st.events ++ stepEvents S l s }

/-- One iteration either mutates the state or, on an uncaught fetch
exception, aborts run() carrying the posting URL. -/
def applyStep (S : Settings) (st : RunState) (l : JobListing) :
    StepOutcome → Except String RunState
  | .fetchFailUncaught => .error l.url
  | s => .ok (stepState S st l s)

/-- One iteration of the loop of JobMatcher.run. -/
def processOne (S : Settings) (env : Env) (tc : Option Coord)
    (st : RunState) (l : JobListing) : Except String RunState :=
  applyStep S st l (stepOf S env tc st.seen l)

/-- The for-loop of JobMatcher.run (matcher.py:128-213). -/
def runLoop (S : Settings) (env : Env) (tc : Option Coord) :
    List JobListing → RunState → Except String RunState
  | [], st => .ok st
  | l :: rest, st =>
    match processOne S env tc st l with
    | .error e => .error e
    | .ok st' => runLoop S env tc rest st'

/-- What a completed run() leaves behind: the returned all_jobs list, the
matches list, the in-memory seen set, the seen set persisted by
_save_scanned_urls (none when saving raised, matcher.py:62-69), the
cover-letter files written, and the invocation trace. -/
structure RunOutput where
  result : List JobMatch
  matchesAbove : List JobMatch
  seen : List String
  savedSeen : Option (List String)
  letters : List (String × String)
  events : List Event
deriving DecidableEq

/-- JobMatcher.run (matcher.py:117-224): loop over the listings from the
initial seen set, then save the seen set (failure logged, not raised) and
return all_jobs.  An exception uncaught inside the loop propagates to the
caller and nothing is returned or saved. -/
def run (S : Settings) (env : Env) (tc : Option Coord)
    (initSeen : List String) (listings : List JobListing) (saveOk : Bool) :
    Except String RunOutput :=
  match runLoop S env tc listings ⟨initSeen, [], [], [], []⟩ with
  | .error e => .error e
  | .ok st =>
    .ok ⟨st.all_jobs, st.matchesAbove, st.seen,
         if saveOk then some st.seen else none, st.letters, st.events⟩

/-- Outcome of main() from the point run() returns (main.py:93-110):
process exit code and which export artifacts were produced. -/
structure MainOutcome where
  exitCode : Nat
  jsonExport : Option (List JobMatch)
  htmlExport : Option (List JobMatch)
deriving DecidableEq

/-- main.py:93-110: filter above-threshold jobs, write the JSON export,
then the HTML summary.  write_matches_json and write_html_summary
(reporting.py) have no internal exception handling, so a raised write is
caught by the enclosing `except Exception` in main, which logs and calls
sys.exit(1); a JSON write failure therefore also prevents the HTML write. -/
def mainExports (S : Settings) (jsonOk htmlOk : Bool)
    (r : Except String RunOutput) : MainOutcome :=
  match r with
  | .error _ => ⟨1, none, none⟩
  | .ok out =>
    let above := out.result.filter (fun j => S.score_threshold ≤ j.score)
    if jsonOk then
      if htmlOk then ⟨0, some above, some out.result⟩
      else ⟨1, some above, none⟩
    else ⟨1, none, none⟩

/-- true exactly when fetch_job_description returned normally. -/
def fetchOk : FetchResult → Bool
  | .ok _ _ => true
  | _ => false

/-- The four conditions of claim C2 for one posting, evaluated against the
seen set current when the posting is reached: it passes the dedup check,
passes the distance step, its fetch succeeds, and its scoring succeeds. -/
def fullyProcessedCheck (S : Settings) (env : Env) (tc : Option Coord)
    (seen : List String) (l : JobListing) : Bool :=
  (S.rescan_all_jobs || !(decide (l.url ∈ seen)))
    && !(distanceGate S env tc l.city).isNone
    && fetchOk (env.fetchResult l)
    && (score_job (env.llmResponse l)).isSome

/-- The seen set after one posting, per the claim-C2 characterisation. -/
def seenAfterOne (S : Settings) (env : Env) (tc : Option Coord)
    (seen : List String) (l : JobListing) : List String :=
  if fullyProcessedCheck S env tc seen l then insertSeen l.url seen else seen

/-- Whether some posting of the feed with URL u is fully processed during a
run starting from the given seen set. -/
def markedDuring (S : Settings) (env : Env) (tc : Option Coord) :
    List String → List JobListing → String → Bool
  | _, [], _ => false
  | seen, l :: rest, u =>
    (fullyProcessedCheck S env tc seen l && decide (l.url = u))
      || markedDuring S env tc (seenAfterOne S env tc seen l) rest u

/-- Number of occurrences of one event in a trace. -/
def countEvent (e : Event) (es : List Event) : Nat :=
  (es.filter (fun x => x = e)).length

/-- The URLs of the sleep events of a trace, in order. -/
def sleepUrls (es : List Event) : List String :=
  es.filterMap (fun e => match e with | .sleep u => some u | _ => none)

/-- Unwrap a completed run (placeholder output on the aborted case). -/
def runOk (r : Except String RunOutput) : RunOutput :=
  match r with
  | .ok o => o
  | .error _ => ⟨[], [], [], none, [], []⟩

/-- The result-sequence URLs of a run, none when the run aborted. -/
def resultUrlsOf (r : Except String RunOutput) : Option (List String) :=
  match r with
  | .ok o => some (o.result.map (fun m => m.listing.url))
  | .error _ => none

/-- The final in-memory seen set of a run, none when the run aborted. -/
def seenOf (r : Except String RunOutput) : Option (List String) :=
  match r with
  | .ok o => some o.seen
  | .error _ => none

/-- The uncaught exception a run aborted with, none when it completed. -/
def errOf (r : Except String RunOutput) : Option String :=
  match r with
  | .ok _ => none
  | .error e => some e

/-! Concrete sample data used by witness and counterexample theorems. -/

/-- A listing with the fields the pipeline reads. -/
def mkListing (title company city url : String) : JobListing :=
  ⟨title, company, "", "", "", city, url, ""⟩

def lw0 : JobListing := mkListing "T0" "A" "c0" "u0"

def lw1 : JobListing := mkListing "T1" "A" "c1" "u1"

def lw2 : JobListing := mkListing "T2" "B" "c2" "u2"

def lw3 : JobListing := mkListing "T3" "C" "c3" "u3"

def lwX : JobListing := mkListing "TX" "C" "cX" "uX"

def lw5 : JobListing := mkListing "T5" "D" "c5" "u5"

def lw6 : JobListing := mkListing "T6" "D" "c6" "u6"

/-- A default evaluation record, used only to select elements of concrete
result lists in closed witness statements. -/
def dummyMatch : JobMatch := ⟨mkListing "" "" "" "", 0, "", "", none, none⟩

/-- Sample settings: threshold 75, cover letters on, no location filter. -/
def SW : Settings :=
  { score_threshold := 75
    cover_letters := true
    rescan_all_jobs := false
    save_html := false
    target_location := none
    max_distance_km := none
    cover_letter_dir := "cover_letters" }

/-- Sample oracles: u3 hits the caught fetch exception, uX the uncaught
one, u2 scores below threshold, every other URL scores 90. -/
def envW : Env :=
  { geocode := fun _ => none
    geodesic := fun _ _ => 0
    fetchResult := fun l =>
      if l.url = "u3" then .reqExn
      else if l.url = "uX" then .otherExn
      else .ok "desc" ["Python"]
    llmResponse := fun l =>
      if l.url = "u2" then .scored 60 "fair match" none
      else if l.url = "u5" then .scored 150 "over" none
      else if l.url = "u6" then .scored (-5) "neg" none
      else .scored 90 "strong match" none
    letterText := fun _ => some "letter body"
    writeOk := fun _ => true
    timestamp := "20250101_000000" }

/-- Settings with a location filter configured: target "TargetTown", max
distance 10 km. -/
def S6 : Settings :=
  { score_threshold := 75
    cover_letters := false
    rescan_all_jobs := false
    save_html := false
    target_location := some "TargetTown"
    max_distance_km := some 10
    cover_letter_dir := "cover_letters" }

/-- Oracles for the location-filter scenarios: the target geocodes to the
origin, city "near" to 5 km away, city "far" to 100 km away, anything
else fails to geocode; the distance oracle reads off the job coordinate's
first component. -/
def env6 : Env :=
  { geocode := fun s =>
      if s = "TargetTown" then some (0, 0)
      else if s = "near" then some (5, 0)
      else if s = "far" then some (100, 0)
      else none
    geodesic := fun _ c => c.1
    fetchResult := fun _ => .ok "desc" []
    llmResponse := fun _ => .scored 80 "ok" none
    letterText := fun _ => none
    writeOk := fun _ => false
    timestamp := "ts" }

def lnear : JobListing := mkListing "N" "E" "near" "un"

def lfar : JobListing := mkListing "F" "E" "far" "uf"

def lbad : JobListing := mkListing "B" "E" "nowhere" "ub"

section Lemmas

variable {S : Settings} {env : Env} {tc : Option Coord}

theorem mem_insertSeen {u v : String} {s : List String} :
    u ∈ insertSeen v s ↔ u = v ∨ u ∈ s := by
  unfold insertSeen
  split
  · rename_i hv
    constructor
    · exact fun h => Or.inr h
    · rintro (rfl | h)
      · exact hv
      · exact h
  · simp [or_comm]

theorem runLoop_cons_ok {l : JobListing} {ls : List JobListing}
    {st st2 : RunState}
    (h : runLoop S env tc (l :: ls) st = .ok st2) :
    ∃ st', processOne S env tc st l = .ok st' ∧
      runLoop S env tc ls st' = .ok st2 := by
  unfold runLoop at h
  cases hp : processOne S env tc st l with
  | error e => rw [hp] at h; cases h
  | ok st' => rw [hp] at h; exact ⟨st', rfl, h⟩

/-- The step decision is .processed exactly when the claim-C2 conditions
hold. -/
theorem stepOf_processed_iff {seen : List String} {l : JobListing} :
    (∃ m a, stepOf S env tc seen l = .processed m a) ↔
      fullyProcessedCheck S env tc seen l = true := by
  unfold stepOf fullyProcessedCheck
  split
  · rename_i hdd
    simp only [Bool.and_eq_true, Bool.or_eq_true, Bool.not_eq_true']
    constructor
    · rintro ⟨m, a, hma⟩; cases hma
    · rintro ⟨⟨⟨hr, _⟩, _⟩, _⟩
      rcases hdd with ⟨hfalse, hmem⟩
      rcases hr with hr | hr
      · rw [hfalse] at hr; cases hr
      · simp [hmem] at hr
  · rename_i hdd
    have hpass : (S.rescan_all_jobs || !(decide (l.url ∈ seen))) = true := by
      rcases not_and_or.mp hdd with h | h
      · simp at h; simp [h]
      · simp [h]
    cases hdg : distanceGate S env tc l.city with
    | none => simp [hdg, hpass]
    | some dk =>
      cases hf : env.fetchResult l with
      | reqExn => simp [hdg, hf, hpass, fetchOk]
      | otherExn => simp [hdg, hf, hpass, fetchOk]
      | ok d r =>
        cases hs : score_job (env.llmResponse l) with
        | none => simp [hdg, hf, hs, hpass, fetchOk]
        | some p =>
          simp [hdg, hf, hs, hpass, fetchOk]
          exact Decidable.em (r = [])

theorem check_true_of_processed {seen : List String} {l : JobListing}
    {m : JobMatch} {a : Bool}
    (h : stepOf S env tc seen l = .processed m a) :
    fullyProcessedCheck S env tc seen l = true :=
  stepOf_processed_iff.mp ⟨m, a, h⟩

theorem check_false_of_step {seen : List String} {l : JobListing}
    (h : ∀ m a, stepOf S env tc seen l ≠ .processed m a) :
    fullyProcessedCheck S env tc seen l = false := by
  rcases Bool.eq_false_or_eq_true (fullyProcessedCheck S env tc seen l)
    with h1 | h0
  · obtain ⟨m, a, hma⟩ := stepOf_processed_iff.mpr h1
    exact absurd hma (h m a)
  · exact h0

/-- A completed iteration is exactly a stepState transition on a
non-aborting step decision. -/
theorem processOne_ok {st st' : RunState} {l : JobListing}
    (h : processOne S env tc st l = .ok st') :
    st' = stepState S st l (stepOf S env tc st.seen l) ∧
      stepOf S env tc st.seen l ≠ .fetchFailUncaught := by
  unfold processOne applyStep at h
  cases hstep : stepOf S env tc st.seen l <;> rw [hstep] at h <;>
    simp_all

/-- Inversion of a .processed decision: the fetched description, the scored
payload and the shape of the appended evaluation. -/
theorem stepOf_processed_spec {seen : List String} {l : JobListing}
    {m : JobMatch} {a : Bool}
    (h : stepOf S env tc seen l = .processed m a) :
    ∃ dk desc reqs p,
      distanceGate S env tc l.city = some dk ∧
      env.fetchResult l = .ok desc reqs ∧
      score_job (env.llmResponse l) = some p ∧
      a = !reqs.isEmpty ∧
      m = ⟨l, p.score, explanationOf p, desc,
        (if S.score_threshold ≤ p.score ∧ S.cover_letters = true
         then _generate_cover_letter_pdf S env l
         else none), dk⟩ := by
  unfold stepOf at h
  split at h
  · cases h
  · cases hdg : distanceGate S env tc l.city with
    | none => rw [hdg] at h; cases h
    | some dk =>
      rw [hdg] at h
      cases hf : env.fetchResult l with
      | reqExn => rw [hf] at h; cases h
      | otherExn => rw [hf] at h; cases h
      | ok desc reqs =>
        rw [hf] at h
        cases hs : score_job (env.llmResponse l) with
        | none => rw [hs] at h; cases h
        | some p =>
          rw [hs] at h
          simp only [StepOutcome.processed.injEq] at h
          exact ⟨dk, desc, reqs, p, rfl, rfl, rfl, h.2.symm, h.1.symm⟩

/-- Seen-set evolution of one completed iteration matches the claim-C2
characterisation. -/
theorem processOne_seen {st st' : RunState} {l : JobListing}
    (h : processOne S env tc st l = .ok st') :
    st'.seen = seenAfterOne S env tc st.seen l := by
  obtain ⟨rfl, hne⟩ := processOne_ok h
  unfold seenAfterOne
  cases hstep : stepOf S env tc st.seen l with
  | processed m a =>
    rw [check_true_of_processed hstep]
    simp [stepState]
  | fetchFailUncaught => exact absurd hstep hne
  | skipDedup =>
    rw [check_false_of_step (by intro m a hc; rw [hstep] at hc; cases hc)]
    simp [stepState]
  | skipDistance =>
    rw [check_false_of_step (by intro m a hc; rw [hstep] at hc; cases hc)]
    simp [stepState]
  | fetchFailCaught =>
    rw [check_false_of_step (by intro m a hc; rw [hstep] at hc; cases hc)]
    simp [stepState]
  | scoreFail =>
    rw [check_false_of_step (by intro m a hc; rw [hstep] at hc; cases hc)]
    simp [stepState]

/-- Loop-level seen-set characterisation: after a completed loop, a URL is
seen exactly when it was seen before or some posting with that URL was
fully processed along the way. -/
theorem markedDuring_cons {seen : List String} {l : JobListing}
    {rest : List JobListing} {u : String} :
    markedDuring S env tc seen (l :: rest) u =
      ((fullyProcessedCheck S env tc seen l && decide (l.url = u))
        || markedDuring S env tc (seenAfterOne S env tc seen l) rest u) := rfl

theorem runLoop_seen {ls : List JobListing} {st st2 : RunState}
    (h : runLoop S env tc ls st = .ok st2) :
    ∀ u, u ∈ st2.seen ↔ u ∈ st.seen ∨
      markedDuring S env tc st.seen ls u = true := by
  induction ls generalizing st with
  | nil =>
    unfold runLoop at h
    injection h with h
    subst h
    simp [markedDuring]
  | cons l rest ih =>
    obtain ⟨st', hp, hrest⟩ := runLoop_cons_ok h
    intro u
    have hseen := processOne_seen hp
    have ihst := ih hrest u
    rw [hseen] at ihst
    rw [ihst, markedDuring_cons]
    unfold seenAfterOne
    by_cases hc : fullyProcessedCheck S env tc st.seen l = true
    · simp only [hc, if_true, mem_insertSeen, Bool.true_and, Bool.or_eq_true,
        decide_eq_true_eq]
      constructor
      · rintro (⟨rfl | hu⟩ | hm)
        · exact Or.inr (Or.inl rfl)
        · exact Or.inl hu
        · exact Or.inr (Or.inr hm)
      · rintro (hu | (rfl | hm))
        · exact Or.inl (Or.inr hu)
        · exact Or.inl (Or.inl rfl)
        · exact Or.inr hm
    · rw [Bool.not_eq_true] at hc
      simp [hc]

/-- A completed run is a completed loop plus the final bookkeeping. -/
theorem run_ok {initSeen : List String} {listings : List JobListing}
    {saveOk : Bool} {out : RunOutput}
    (h : run S env tc initSeen listings saveOk = .ok out) :
    ∃ st, runLoop S env tc listings ⟨initSeen, [], [], [], []⟩ = .ok st ∧
      out = ⟨st.all_jobs, st.matchesAbove, st.seen,
        if saveOk then some st.seen else none, st.letters, st.events⟩ := by
  unfold run at h
  cases hl : runLoop S env tc listings ⟨initSeen, [], [], [], []⟩ with
  | error e => rw [hl] at h; cases h
  | ok st =>
    rw [hl] at h
    injection h with h
    exact ⟨st, rfl, h.symm⟩

theorem stepOf_skipDedup_spec {seen : List String} {l : JobListing}
    (h : stepOf S env tc seen l = .skipDedup) :
    S.rescan_all_jobs = false ∧ l.url ∈ seen := by
  unfold stepOf at h
  split at h
  · assumption
  · cases hdg : distanceGate S env tc l.city with
    | none => rw [hdg] at h; cases h
    | some dk =>
      rw [hdg] at h
      cases hf : env.fetchResult l with
      | reqExn => rw [hf] at h; cases h
      | otherExn => rw [hf] at h; cases h
      | ok desc reqs =>
        rw [hf] at h
        cases hs : score_job (env.llmResponse l) with
        | none => rw [hs] at h; cases h
        | some p => rw [hs] at h; cases h

theorem stepState_events {st : RunState} {l : JobListing} {s : StepOutcome} :
    (stepState S st l s).events = st.events ++ stepEvents S l s := by
  cases s <;> rfl

theorem stepState_seen_of_not_processed {st : RunState} {l : JobListing}
    {s : StepOutcome} (h : ∀ m a, s ≠ .processed m a) :
    (stepState S st l s).seen = st.seen := by
  cases s <;> first | rfl | exact absurd rfl (h _ _)

theorem countEvent_append {e : Event} {es1 es2 : List Event} :
    countEvent e (es1 ++ es2) = countEvent e es1 + countEvent e es2 := by
  unfold countEvent
  simp [List.filter_append]

theorem countEvent_stepEvents_other {u : String} {l : JobListing}
    {s : StepOutcome} (hu : l.url ≠ u) :
    countEvent (.fetch u) (stepEvents S l s) = 0 ∧
      countEvent (.score u) (stepEvents S l s) = 0 := by
  cases s with
  | processed m a =>
    unfold stepEvents countEvent
    cases a <;>
      by_cases ht : S.score_threshold ≤ m.score ∧ S.cover_letters = true <;>
        simp [ht, hu]
  | skipDedup => exact ⟨rfl, rfl⟩
  | skipDistance => exact ⟨rfl, rfl⟩
  | fetchFailUncaught => exact ⟨rfl, rfl⟩
  | fetchFailCaught => unfold stepEvents countEvent; simp [hu]
  | scoreFail => unfold stepEvents countEvent; simp [hu]

theorem countEvent_stepEvents_processed {l : JobListing} {m : JobMatch}
    {a : Bool} :
    countEvent (.fetch l.url) (stepEvents S l (.processed m a)) = 1 ∧
      countEvent (.score l.url) (stepEvents S l (.processed m a)) = 1 := by
  unfold stepEvents countEvent
  cases a <;>
    by_cases ht : S.score_threshold ≤ m.score ∧ S.cover_letters = true <;>
      simp [ht]

theorem processOne_seen_mono {st st' : RunState} {l : JobListing}
    (h : processOne S env tc st l = .ok st') : st.seen ⊆ st'.seen := by
  rw [processOne_seen h]
  unfold seenAfterOne insertSeen
  intro u hu
  split
  · split
    · exact hu
    · exact List.mem_append_left _ hu
  · exact hu

theorem runLoop_seen_mono {ls : List JobListing} {st st2 : RunState}
    (h : runLoop S env tc ls st = .ok st2) : st.seen ⊆ st2.seen := by
  induction ls generalizing st with
  | nil =>
    unfold runLoop at h
    injection h with h
    subst h
    exact fun _ hu => hu
  | cons l rest ih =>
    obtain ⟨st', hp, hrest⟩ := runLoop_cons_ok h
    exact fun u hu => ih hrest (processOne_seen_mono hp hu)

theorem runLoop_seen_sub {ls : List JobListing} {st st2 : RunState}
    (h : runLoop S env tc ls st = .ok st2) :
    ∀ u, u ∈ st2.seen → u ∈ st.seen ∨ u ∈ ls.map (fun l => l.url) := by
  induction ls generalizing st with
  | nil =>
    unfold runLoop at h
    injection h with h
    subst h
    exact fun u hu => Or.inl hu
  | cons l rest ih =>
    obtain ⟨st', hp, hrest⟩ := runLoop_cons_ok h
    intro u hu
    rcases ih hrest u hu with hin | hin
    · rw [processOne_seen hp] at hin
      unfold seenAfterOne at hin
      split at hin
      · rcases mem_insertSeen.mp hin with rfl | hin
        · exact Or.inr (by simp)
        · exact Or.inl hin
      · exact Or.inl hin
    · exact Or.inr (by simp [hin])

theorem runLoop_count_frozen {ls : List JobListing} {st st2 : RunState}
    {u : String} (h : runLoop S env tc ls st = .ok st2)
    (hu : u ∉ ls.map (fun l => l.url)) :
    countEvent (.fetch u) st2.events = countEvent (.fetch u) st.events ∧
      countEvent (.score u) st2.events = countEvent (.score u) st.events := by
  induction ls generalizing st with
  | nil =>
    unfold runLoop at h
    injection h with h
    subst h
    exact ⟨rfl, rfl⟩
  | cons l rest ih =>
    obtain ⟨st', hp, hrest⟩ := runLoop_cons_ok h
    have hne : l.url ≠ u := by
      intro hc; exact hu (by simp [hc])
    have hrest' : u ∉ rest.map (fun l => l.url) := by
      intro hc; exact hu (by simp [hc])
    obtain ⟨rfl, _⟩ := processOne_ok hp
    have hcnt := @countEvent_stepEvents_other S u l
      (stepOf S env tc st.seen l) hne
    obtain ⟨ih1, ih2⟩ := ih hrest hrest'
    rw [ih1, ih2, stepState_events, countEvent_append, countEvent_append,
      hcnt.1, hcnt.2]
    exact ⟨rfl, rfl⟩

theorem runLoop_count_once {ls : List JobListing} {st st2 : RunState}
    {u : String} (h : runLoop S env tc ls st = .ok st2)
    (hnd : (ls.map (fun l => l.url)).Nodup)
    (hu1 : u ∉ st.seen) (hu2 : u ∈ st2.seen) :
    countEvent (.fetch u) st2.events = countEvent (.fetch u) st.events + 1 ∧
      countEvent (.score u) st2.events =
        countEvent (.score u) st.events + 1 := by
  induction ls generalizing st with
  | nil =>
    unfold runLoop at h
    injection h with h
    subst h
    exact absurd hu2 hu1
  | cons l rest ih =>
    obtain ⟨st', hp, hrest⟩ := runLoop_cons_ok h
    have hnd' : (rest.map (fun l => l.url)).Nodup := (List.nodup_cons.mp hnd).2
    have hlrest : l.url ∉ rest.map (fun l => l.url) :=
      (List.nodup_cons.mp hnd).1
    obtain ⟨rfl, hnabort⟩ := processOne_ok hp
    by_cases hlu : l.url = u
    · subst hlu
      cases hstep : stepOf S env tc st.seen l with
      | fetchFailUncaught => exact absurd hstep hnabort
      | skipDedup =>
        obtain ⟨_, hmem⟩ := stepOf_skipDedup_spec hstep
        exact absurd hmem hu1
      | processed m a =>
        obtain ⟨hf, hs⟩ := runLoop_count_frozen hrest hlrest
        rw [hf, hs, hstep, stepState_events, countEvent_append,
          countEvent_append]
        have hcnt := @countEvent_stepEvents_processed S l m a
        rw [hcnt.1, hcnt.2]
        exact ⟨rfl, rfl⟩
      | skipDistance =>
        have hseen : (stepState S st l (stepOf S env tc st.seen l)).seen
            = st.seen := by
          rw [hstep]
          exact stepState_seen_of_not_processed (by intro m a hc; cases hc)
        rcases runLoop_seen_sub hrest _ hu2 with hin | hin
        · rw [hseen] at hin; exact absurd hin hu1
        · exact absurd hin hlrest
      | fetchFailCaught =>
        have hseen : (stepState S st l (stepOf S env tc st.seen l)).seen
            = st.seen := by
          rw [hstep]
          exact stepState_seen_of_not_processed (by intro m a hc; cases hc)
        rcases runLoop_seen_sub hrest _ hu2 with hin | hin
        · rw [hseen] at hin; exact absurd hin hu1
        · exact absurd hin hlrest
      | scoreFail =>
        have hseen : (stepState S st l (stepOf S env tc st.seen l)).seen
            = st.seen := by
          rw [hstep]
          exact stepState_seen_of_not_processed (by intro m a hc; cases hc)
        rcases runLoop_seen_sub hrest _ hu2 with hin | hin
        · rw [hseen] at hin; exact absurd hin hu1
        · exact absurd hin hlrest
    · have hu1' : u ∉ (stepState S st l (stepOf S env tc st.seen l)).seen := by
        have := processOne_seen hp
        rw [this]
        unfold seenAfterOne
        split
        · intro hc
          rcases mem_insertSeen.mp hc with rfl | hc2
          · exact hlu rfl
          · exact hu1 hc2
        · exact hu1
      obtain ⟨ih1, ih2⟩ := ih hrest hnd' hu1'
      have hcnt := @countEvent_stepEvents_other S u l
        (stepOf S env tc st.seen l) hlu
      rw [ih1, ih2, stepState_events, countEvent_append, countEvent_append,
        hcnt.1, hcnt.2]
      exact ⟨rfl, rfl⟩

theorem sleepUrls_append {es1 es2 : List Event} :
    sleepUrls (es1 ++ es2) = sleepUrls es1 ++ sleepUrls es2 := by
  unfold sleepUrls
  simp [List.filterMap_append]

theorem sleepUrls_stepEvents_processed {l : JobListing} {m : JobMatch}
    {a : Bool} :
    sleepUrls (stepEvents S l (.processed m a)) = [l.url] := by
  unfold stepEvents sleepUrls
  cases a <;>
    by_cases ht : S.score_threshold ≤ m.score ∧ S.cover_letters = true <;>
      simp [ht]

theorem sleepUrls_stepEvents_other {l : JobListing} {s : StepOutcome}
    (h : ∀ m a, s ≠ .processed m a) :
    sleepUrls (stepEvents S l s) = [] := by
  cases s with
  | processed m a => exact absurd rfl (h _ _)
  | skipDedup => rfl
  | skipDistance => rfl
  | fetchFailUncaught => rfl
  | fetchFailCaught => rfl
  | scoreFail => rfl

theorem runLoop_sleep {ls : List JobListing} {st st2 : RunState}
    (h : runLoop S env tc ls st = .ok st2)
    (hinv : sleepUrls st.events = st.all_jobs.map (fun m => m.listing.url)) :
    sleepUrls st2.events = st2.all_jobs.map (fun m => m.listing.url) := by
  induction ls generalizing st with
  | nil =>
    unfold runLoop at h
    injection h with h
    subst h
    exact hinv
  | cons l rest ih =>
    obtain ⟨st', hp, hrest⟩ := runLoop_cons_ok h
    refine ih hrest ?_
    obtain ⟨rfl, hnabort⟩ := processOne_ok hp
    cases hstep : stepOf S env tc st.seen l with
    | fetchFailUncaught => exact absurd hstep hnabort
    | processed m a =>
      obtain ⟨dk, desc, reqs, p, _, _, _, _, hm⟩ := stepOf_processed_spec hstep
      rw [stepState_events, sleepUrls_append, sleepUrls_stepEvents_processed,
        hinv]
      simp [stepState, hm]
    | skipDedup =>
      rw [stepState_events, sleepUrls_append,
        sleepUrls_stepEvents_other (by intro m a hc; cases hc)]
      simpa [stepState] using hinv
    | skipDistance =>
      rw [stepState_events, sleepUrls_append,
        sleepUrls_stepEvents_other (by intro m a hc; cases hc)]
      simpa [stepState] using hinv
    | fetchFailCaught =>
      rw [stepState_events, sleepUrls_append,
        sleepUrls_stepEvents_other (by intro m a hc; cases hc)]
      simpa [stepState] using hinv
    | scoreFail =>
      rw [stepState_events, sleepUrls_append,
        sleepUrls_stepEvents_other (by intro m a hc; cases hc)]
      simpa [stepState] using hinv

theorem stepState_not_processed {st : RunState} {l : JobListing}
    {s : StepOutcome} (h : ∀ m a, s ≠ .processed m a) :
    stepState S st l s = { st with events := st.events ++ stepEvents S l s } := by
  cases s <;> first | rfl | exact absurd rfl (h _ _)

theorem score_job_bounds {r : LLMResponse} {p : ScorePayload}
    (h : score_job r = some p) : 0 ≤ p.score ∧ p.score ≤ 100 := by
  cases r with
  | scored v s rt =>
    unfold score_job at h
    injection h with h
    subst h
    unfold clampScore
    constructor
    · exact le_max_left 0 _
    · exact max_le (by norm_num) (min_le_left _ _)
  | empty => cases h
  | noJson => cases h
  | badJson => cases h
  | missingScore => cases h
  | nonNumericScore => cases h
  | exn => cases h

theorem runLoop_scores {ls : List JobListing} {st st2 : RunState}
    (h : runLoop S env tc ls st = .ok st2)
    (hinv : ∀ m ∈ st.all_jobs, 0 ≤ m.score ∧ m.score ≤ 100) :
    ∀ m ∈ st2.all_jobs, 0 ≤ m.score ∧ m.score ≤ 100 := by
  induction ls generalizing st with
  | nil =>
    unfold runLoop at h
    injection h with h
    subst h
    exact hinv
  | cons l rest ih =>
    obtain ⟨st', hp, hrest⟩ := runLoop_cons_ok h
    refine ih hrest ?_
    obtain ⟨rfl, hnabort⟩ := processOne_ok hp
    cases hstep : stepOf S env tc st.seen l with
    | fetchFailUncaught => exact absurd hstep hnabort
    | processed m a =>
      obtain ⟨dk, desc, reqs, p, _, _, hsj, _, hm⟩ := stepOf_processed_spec hstep
      intro m2 hm2
      have hm2' : m2 ∈ st.all_jobs ∨ m2 = m := by simpa [stepState] using hm2
      rcases hm2' with h2 | rfl
      · exact hinv m2 h2
      · rw [hm]
        exact score_job_bounds hsj
    | skipDedup =>
      rw [stepState_not_processed (by intro m a hc; cases hc)]
      exact hinv
    | skipDistance =>
      rw [stepState_not_processed (by intro m a hc; cases hc)]
      exact hinv
    | fetchFailCaught =>
      rw [stepState_not_processed (by intro m a hc; cases hc)]
      exact hinv
    | scoreFail =>
      rw [stepState_not_processed (by intro m a hc; cases hc)]
      exact hinv

theorem generate_isSome_iff {l : JobListing} :
    (_generate_cover_letter_pdf S env l).isSome
      = ((env.letterText l).isSome && env.writeOk l) := by
  unfold _generate_cover_letter_pdf
  cases hl : env.letterText l with
  | none => rfl
  | some txt => cases hw : env.writeOk l <;> simp [hw]

theorem letter_not_in_stepEvents_other {u : String} {l : JobListing}
    {s : StepOutcome} (h : ∀ m a, s ≠ .processed m a) :
    Event.letter u ∉ stepEvents S l s := by
  cases s with
  | processed m a => exact absurd rfl (h _ _)
  | skipDedup => simp [stepEvents]
  | skipDistance => simp [stepEvents]
  | fetchFailUncaught => simp [stepEvents]
  | fetchFailCaught => simp [stepEvents]
  | scoreFail => simp [stepEvents]

theorem letter_in_stepEvents_processed {u : String} {l : JobListing}
    {m : JobMatch} {a : Bool} :
    Event.letter u ∈ stepEvents S l (.processed m a) ↔
      (u = l.url ∧ S.score_threshold ≤ m.score ∧ S.cover_letters = true) := by
  unfold stepEvents
  by_cases ht : S.score_threshold ≤ m.score ∧ S.cover_letters = true
  · cases a <;> simp [ht]
  · cases a <;> simp [ht]

/-- Cover-letter invariant carried through the loop: (1) an evaluation
holds a letter path exactly when its score met the threshold, letters were
enabled, generation returned text and the write succeeded; (2) the written
letter files correspond exactly to the evaluations holding a path; (3)
every Letter-Generator invocation in the trace belongs to an evaluation at
or above the threshold with letters enabled. -/
def CoverInv (S : Settings) (env : Env) (st : RunState) : Prop :=
  (∀ m ∈ st.all_jobs, (m.cover_letter_path.isSome = true) ↔
    (S.score_threshold ≤ m.score ∧ S.cover_letters = true ∧
      (env.letterText m.listing).isSome = true ∧
      env.writeOk m.listing = true))
  ∧ (∀ u p, (u, p) ∈ st.letters ↔ ∃ m, m ∈ st.all_jobs ∧
      m.listing.url = u ∧ m.cover_letter_path = some p)
  ∧ (∀ u, Event.letter u ∈ st.events → ∃ m, m ∈ st.all_jobs ∧
      m.listing.url = u ∧ S.score_threshold ≤ m.score ∧
      S.cover_letters = true)

theorem runLoop_cover {ls : List JobListing} {st st2 : RunState}
    (h : runLoop S env tc ls st = .ok st2)
    (hinv : CoverInv S env st) : CoverInv S env st2 := by
  induction ls generalizing st with
  | nil =>
    unfold runLoop at h
    injection h with h
    subst h
    exact hinv
  | cons l rest ih =>
    obtain ⟨st', hp, hrest⟩ := runLoop_cons_ok h
    refine ih hrest ?_
    obtain ⟨rfl, hnabort⟩ := processOne_ok hp
    obtain ⟨hinv1, hinv2, hinv3⟩ := hinv
    cases hstep : stepOf S env tc st.seen l with
    | fetchFailUncaught => exact absurd hstep hnabort
    | skipDedup =>
      rw [stepState_not_processed (by intro m a hc; cases hc)]
      refine ⟨hinv1, hinv2, ?_⟩
      intro u hu
      rcases List.mem_append.mp hu with hu | hu
      · exact hinv3 u hu
      · exact absurd hu (letter_not_in_stepEvents_other
          (by intro m a hc; cases hc))
    | skipDistance =>
      rw [stepState_not_processed (by intro m a hc; cases hc)]
      refine ⟨hinv1, hinv2, ?_⟩
      intro u hu
      rcases List.mem_append.mp hu with hu | hu
      · exact hinv3 u hu
      · exact absurd hu (letter_not_in_stepEvents_other
          (by intro m a hc; cases hc))
    | fetchFailCaught =>
      rw [stepState_not_processed (by intro m a hc; cases hc)]
      refine ⟨hinv1, hinv2, ?_⟩
      intro u hu
      rcases List.mem_append.mp hu with hu | hu
      · exact hinv3 u hu
      · exact absurd hu (letter_not_in_stepEvents_other
          (by intro m a hc; cases hc))
    | scoreFail =>
      rw [stepState_not_processed (by intro m a hc; cases hc)]
      refine ⟨hinv1, hinv2, ?_⟩
      intro u hu
      rcases List.mem_append.mp hu with hu | hu
      · exact hinv3 u hu
      · exact absurd hu (letter_not_in_stepEvents_other
          (by intro m a hc; cases hc))
    | processed m a =>
      obtain ⟨dk, desc, reqs, p, _, _, hsj, _, hm⟩ := stepOf_processed_spec hstep
      have hmlist : m.listing = l := by rw [hm]
      have hmscore : m.score = p.score := by rw [hm]
      have hmpath : m.cover_letter_path =
          (if S.score_threshold ≤ p.score ∧ S.cover_letters = true
           then _generate_cover_letter_pdf S env l
           else none) := by rw [hm]
      refine ⟨?_, ?_, ?_⟩
      · intro m2 hm2
        have hm2' : m2 ∈ st.all_jobs ∨ m2 = m := by
          simpa [stepState] using hm2
        rcases hm2' with h2 | rfl
        · exact hinv1 m2 h2
        · rw [hmpath, hmlist, hmscore]
          by_cases ht : S.score_threshold ≤ p.score ∧ S.cover_letters = true
          · rw [if_pos ht]
            rw [generate_isSome_iff]
            simp only [Bool.and_eq_true]
            constructor
            · rintro ⟨h1, h2⟩
              exact ⟨ht.1, ht.2, h1, h2⟩
            · rintro ⟨_, _, h1, h2⟩
              exact ⟨h1, h2⟩
          · rw [if_neg ht]
            simp only [Option.isSome_none, Bool.false_eq_true, false_iff]
            intro hc
            exact ht ⟨hc.1, hc.2.1⟩
      · intro u q
        constructor
        · intro hu
          have hu' : (u, q) ∈ st.letters ∨
              (u, q) ∈ (match m.cover_letter_path with
                | some pth => [(l.url, pth)]
                | none => ([] : List (String × String))) := by
            simpa [stepState] using hu
          rcases hu' with hu2 | hu2
          · obtain ⟨m2, hmem, he1, he2⟩ := (hinv2 u q).mp hu2
            exact ⟨m2, by simp [stepState, hmem], he1, he2⟩
          · cases hpath : m.cover_letter_path with
            | none => rw [hpath] at hu2; cases hu2
            | some pth =>
              rw [hpath] at hu2
              have : u = l.url ∧ q = pth := by simpa using hu2
              refine ⟨m, by simp [stepState], ?_, ?_⟩
              · rw [hmlist, this.1]
              · rw [hpath, this.2]
        · rintro ⟨m2, hmem, he1, he2⟩
          have hmem' : m2 ∈ st.all_jobs ∨ m2 = m := by
            simpa [stepState] using hmem
          rcases hmem' with h2 | rfl
          · have := (hinv2 u q).mpr ⟨m2, h2, he1, he2⟩
            simp [stepState, this]
          · show (u, q) ∈ (stepState S st l (.processed m2 a)).letters
            simp only [stepState]
            rw [he2]
            have : u = l.url := by rw [← he1, hmlist]
            subst this
            simp
      · intro u hu
        have hu' : Event.letter u ∈ st.events ∨
            Event.letter u ∈ stepEvents S l (.processed m a) := by
          simpa [stepState] using hu
        rcases hu' with hu2 | hu2
        · obtain ⟨m2, hmem, he1, he2, he3⟩ := hinv3 u hu2
          exact ⟨m2, by simp [stepState, hmem], he1, he2, he3⟩
        · obtain ⟨hue, ht1, ht2⟩ := letter_in_stepEvents_processed.mp hu2
          refine ⟨m, by simp [stepState], ?_, ht1, ht2⟩
          rw [hmlist, hue]

theorem processOne_of_step {st : RunState} {l : JobListing} {s : StepOutcome}
    (hstep : stepOf S env tc st.seen l = s) (hs : s ≠ .fetchFailUncaught) :
    processOne S env tc st l = .ok (stepState S st l s) := by
  unfold processOne applyStep
  rw [hstep]
  cases s <;> first | rfl | exact absurd rfl hs

theorem stepState_eq_self {st : RunState} {l : JobListing} {s : StepOutcome}
    (hs : ∀ m a, s ≠ .processed m a) (he : stepEvents S l s = []) :
    stepState S st l s = st := by
  rw [stepState_not_processed hs, he]
  simp

theorem processOne_dedup_skip {st : RunState} {l : JobListing}
    (hre : S.rescan_all_jobs = false) (hmem : l.url ∈ st.seen) :
    processOne S env tc st l = .ok st := by
  have hstep : stepOf S env tc st.seen l = .skipDedup := by
    unfold stepOf
    rw [if_pos ⟨hre, hmem⟩]
  rw [processOne_of_step hstep (by intro hc; cases hc),
    stepState_eq_self (by intro m a hc; cases hc)
      (show stepEvents S l .skipDedup = [] from rfl)]

theorem stepOf_skipDistance_intro {seen : List String} {l : JobListing}
    (hdd : ¬(S.rescan_all_jobs = false ∧ l.url ∈ seen))
    (hdg : distanceGate S env tc l.city = none) :
    stepOf S env tc seen l = .skipDistance := by
  unfold stepOf
  rw [if_neg hdd]
  simp only [hdg]

theorem stepOf_fetchFailCaught_intro {seen : List String} {l : JobListing}
    {dk : Option Rat}
    (hdd : ¬(S.rescan_all_jobs = false ∧ l.url ∈ seen))
    (hdg : distanceGate S env tc l.city = some dk)
    (hf : env.fetchResult l = .reqExn) :
    stepOf S env tc seen l = .fetchFailCaught := by
  unfold stepOf
  rw [if_neg hdd]
  simp only [hdg, hf]

theorem stepOf_scoreFail_intro {seen : List String} {l : JobListing}
    {dk : Option Rat} {desc : String} {reqs : List String}
    (hdd : ¬(S.rescan_all_jobs = false ∧ l.url ∈ seen))
    (hdg : distanceGate S env tc l.city = some dk)
    (hf : env.fetchResult l = .ok desc reqs)
    (hs : score_job (env.llmResponse l) = none) :
    stepOf S env tc seen l = .scoreFail := by
  unfold stepOf
  rw [if_neg hdd]
  simp only [hdg, hf, hs]

theorem stepOf_processed_intro {seen : List String} {l : JobListing}
    {dk : Option Rat} {desc : String} {reqs : List String} {p : ScorePayload}
    (hdd : ¬(S.rescan_all_jobs = false ∧ l.url ∈ seen))
    (hdg : distanceGate S env tc l.city = some dk)
    (hf : env.fetchResult l = .ok desc reqs)
    (hs : score_job (env.llmResponse l) = some p) :
    stepOf S env tc seen l = .processed
      ⟨l, p.score, explanationOf p, desc,
        (if S.score_threshold ≤ p.score ∧ S.cover_letters = true
         then _generate_cover_letter_pdf S env l
         else none), dk⟩
      (!reqs.isEmpty) := by
  unfold stepOf
  rw [if_neg hdd]
  simp only [hdg, hf, hs]

theorem stepOf_skipDistance_spec {seen : List String} {l : JobListing}
    (h : stepOf S env tc seen l = .skipDistance) :
    distanceGate S env tc l.city = none := by
  unfold stepOf at h
  split at h
  · cases h
  · cases hdg : distanceGate S env tc l.city with
    | none => rfl
    | some dk =>
      rw [hdg] at h
      cases hf : env.fetchResult l with
      | reqExn => rw [hf] at h; cases h
      | otherExn => rw [hf] at h; cases h
      | ok desc reqs =>
        rw [hf] at h
        cases hs : score_job (env.llmResponse l) with
        | none => rw [hs] at h; cases h
        | some p => rw [hs] at h; cases h

theorem stepOf_fetchFailCaught_spec {seen : List String} {l : JobListing}
    (h : stepOf S env tc seen l = .fetchFailCaught) :
    ∃ dk, distanceGate S env tc l.city = some dk ∧
      env.fetchResult l = .reqExn := by
  unfold stepOf at h
  split at h
  · cases h
  · cases hdg : distanceGate S env tc l.city with
    | none => rw [hdg] at h; cases h
    | some dk =>
      rw [hdg] at h
      cases hf : env.fetchResult l with
      | reqExn => exact ⟨dk, rfl, rfl⟩
      | otherExn => rw [hf] at h; cases h
      | ok desc reqs =>
        rw [hf] at h
        cases hs : score_job (env.llmResponse l) with
        | none => rw [hs] at h; cases h
        | some p => rw [hs] at h; cases h

theorem stepOf_scoreFail_spec {seen : List String} {l : JobListing}
    (h : stepOf S env tc seen l = .scoreFail) :
    ∃ dk desc reqs, distanceGate S env tc l.city = some dk ∧
      env.fetchResult l = .ok desc reqs ∧
      score_job (env.llmResponse l) = none := by
  unfold stepOf at h
  split at h
  · cases h
  · cases hdg : distanceGate S env tc l.city with
    | none => rw [hdg] at h; cases h
    | some dk =>
      rw [hdg] at h
      cases hf : env.fetchResult l with
      | reqExn => rw [hf] at h; cases h
      | otherExn => rw [hf] at h; cases h
      | ok desc reqs =>
        rw [hf] at h
        cases hs : score_job (env.llmResponse l) with
        | none => exact ⟨dk, desc, reqs, rfl, rfl, rfl⟩
        | some p => rw [hs] at h; cases h

theorem distanceGate_inactive {city : String}
    (h : tc = none ∨ S.max_distance_km = none ∨ S.max_distance_km = some 0) :
    distanceGate S env tc city = some none := by
  unfold distanceGate
  rcases h with rfl | h | h
  · cases S.max_distance_km <;> rfl
  · rw [h]; cases tc <;> rfl
  · rw [h]
    cases tc with
    | none => rfl
    | some t => simp

theorem runLoop_dist_none {ls : List JobListing} {st st2 : RunState}
    (hguard : tc = none ∨ S.max_distance_km = none ∨
      S.max_distance_km = some 0)
    (h : runLoop S env tc ls st = .ok st2)
    (hinv : ∀ m ∈ st.all_jobs, m.distance_km = none) :
    ∀ m ∈ st2.all_jobs, m.distance_km = none := by
  induction ls generalizing st with
  | nil =>
    unfold runLoop at h
    injection h with h
    subst h
    exact hinv
  | cons l rest ih =>
    obtain ⟨st', hp, hrest⟩ := runLoop_cons_ok h
    refine ih hrest ?_
    obtain ⟨rfl, hnabort⟩ := processOne_ok hp
    cases hstep : stepOf S env tc st.seen l with
    | fetchFailUncaught => exact absurd hstep hnabort
    | processed m a =>
      obtain ⟨dk, desc, reqs, p, hdg, _, _, _, hm⟩ :=
        stepOf_processed_spec hstep
      intro m2 hm2
      have hm2' : m2 ∈ st.all_jobs ∨ m2 = m := by
        simpa [stepState] using hm2
      rcases hm2' with h2 | rfl
      · exact hinv m2 h2
      · rw [distanceGate_inactive hguard] at hdg
        injection hdg with hdg
        rw [hm, ← hdg]
    | skipDedup =>
      rw [stepState_not_processed (by intro m a hc; cases hc)]
      exact hinv
    | skipDistance =>
      rw [stepState_not_processed (by intro m a hc; cases hc)]
      exact hinv
    | fetchFailCaught =>
      rw [stepState_not_processed (by intro m a hc; cases hc)]
      exact hinv
    | scoreFail =>
      rw [stepState_not_processed (by intro m a hc; cases hc)]
      exact hinv

theorem run_saveOk_false {initSeen : List String}
    {listings : List JobListing} {out : RunOutput}
    (h : run S env tc initSeen listings true = .ok out) :
    run S env tc initSeen listings false =
      .ok { out with savedSeen := none } := by
  unfold run at h ⊢
  cases hl : runLoop S env tc listings ⟨initSeen, [], [], [], []⟩ with
  | error e => rw [hl] at h; cases h
  | ok st =>
    rw [hl] at h
    injection h with h
    subst h
    rfl

/-- Rerunning the loop over the same feed and the same oracles, starting
from the final seen set of a completed first pass and with the rescan
override unset, completes with no new evaluations, no new matches, no new
letters and an unchanged seen set: every posting is either already seen
(it was fully processed the first time) or fails or skips the same
seen-independent check again. -/
theorem idem_loop {ls : List JobListing} {st1 stf st2 : RunState}
    (hre : S.rescan_all_jobs = false)
    (h1 : runLoop S env tc ls st1 = .ok stf)
    (hseen : st2.seen = stf.seen) :
    ∃ st2f, runLoop S env tc ls st2 = .ok st2f ∧
      st2f.seen = st2.seen ∧ st2f.all_jobs = st2.all_jobs ∧
      st2f.matchesAbove = st2.matchesAbove ∧
      st2f.letters = st2.letters := by
  induction ls generalizing st1 st2 with
  | nil =>
    refine ⟨st2, rfl, rfl, rfl, rfl, rfl⟩
  | cons l rest ih =>
    obtain ⟨st1', hp1, hrest1⟩ := runLoop_cons_ok h1
    obtain ⟨hst1', hnabort⟩ := processOne_ok hp1
    have hmonorest : st1'.seen ⊆ stf.seen := runLoop_seen_mono hrest1
    have hloop2 : ∀ st2' : RunState, processOne S env tc st2 l = .ok st2' →
        st2'.seen = st2.seen → st2'.all_jobs = st2.all_jobs →
        st2'.matchesAbove = st2.matchesAbove → st2'.letters = st2.letters →
        ∃ st2f, runLoop S env tc (l :: rest) st2 = .ok st2f ∧
          st2f.seen = st2.seen ∧ st2f.all_jobs = st2.all_jobs ∧
          st2f.matchesAbove = st2.matchesAbove ∧
          st2f.letters = st2.letters := by
      intro st2' hp2 he1 he2 he3 he4
      obtain ⟨st2f, hl2, hf1, hf2, hf3, hf4⟩ :=
        ih hrest1 (he1.trans hseen)
      refine ⟨st2f, ?_, hf1.trans he1, hf2.trans he2, hf3.trans he3,
        hf4.trans he4⟩
      unfold runLoop
      rw [hp2]
      exact hl2
    cases hstep1 : stepOf S env tc st1.seen l with
    | fetchFailUncaught => exact absurd hstep1 hnabort
    | processed m a =>
      have hl1 : l.url ∈ st1'.seen := by
        rw [hst1', hstep1]
        show l.url ∈ (stepState S st1 l (.processed m a)).seen
        simp [stepState, mem_insertSeen]
      have hl2 : l.url ∈ st2.seen := hseen ▸ hmonorest hl1
      exact hloop2 st2 (processOne_dedup_skip hre hl2) rfl rfl rfl rfl
    | skipDedup =>
      obtain ⟨_, hmem1⟩ := stepOf_skipDedup_spec hstep1
      have hl1 : l.url ∈ st1'.seen := by
        rw [hst1', hstep1,
          stepState_eq_self (by intro m a hc; cases hc)
            (show stepEvents S l .skipDedup = [] from rfl)]
        exact hmem1
      have hl2 : l.url ∈ st2.seen := hseen ▸ hmonorest hl1
      exact hloop2 st2 (processOne_dedup_skip hre hl2) rfl rfl rfl rfl
    | skipDistance =>
      by_cases hmem2 : l.url ∈ st2.seen
      · exact hloop2 st2 (processOne_dedup_skip hre hmem2) rfl rfl rfl rfl
      · have hdg := stepOf_skipDistance_spec hstep1
        have hstep2 : stepOf S env tc st2.seen l = .skipDistance :=
          stepOf_skipDistance_intro (by intro hc; exact hmem2 hc.2) hdg
        have hp2 : processOne S env tc st2 l = .ok st2 := by
          rw [processOne_of_step hstep2 (by intro hc; cases hc),
            stepState_eq_self (by intro m a hc; cases hc)
              (show stepEvents S l .skipDistance = [] from rfl)]
        exact hloop2 st2 hp2 rfl rfl rfl rfl
    | fetchFailCaught =>
      by_cases hmem2 : l.url ∈ st2.seen
      · exact hloop2 st2 (processOne_dedup_skip hre hmem2) rfl rfl rfl rfl
      · obtain ⟨dk, hdg, hf⟩ := stepOf_fetchFailCaught_spec hstep1
        have hstep2 : stepOf S env tc st2.seen l = .fetchFailCaught :=
          stepOf_fetchFailCaught_intro (by intro hc; exact hmem2 hc.2) hdg hf
        have hp2 : processOne S env tc st2 l =
            .ok (stepState S st2 l .fetchFailCaught) :=
          processOne_of_step hstep2 (by intro hc; cases hc)
        refine hloop2 (stepState S st2 l .fetchFailCaught) hp2 ?_ ?_ ?_ ?_ <;>
          rw [stepState_not_processed (by intro m a hc; cases hc)]
    | scoreFail =>
      by_cases hmem2 : l.url ∈ st2.seen
      · exact hloop2 st2 (processOne_dedup_skip hre hmem2) rfl rfl rfl rfl
      · obtain ⟨dk, desc, reqs, hdg, hf, hs⟩ := stepOf_scoreFail_spec hstep1
        have hstep2 : stepOf S env tc st2.seen l = .scoreFail :=
          stepOf_scoreFail_intro (by intro hc; exact hmem2 hc.2) hdg hf hs
        have hp2 : processOne S env tc st2 l =
            .ok (stepState S st2 l .scoreFail) :=
          processOne_of_step hstep2 (by intro hc; cases hc)
        refine hloop2 (stepState S st2 l .scoreFail) hp2 ?_ ?_ ?_ ?_ <;>
          rw [stepState_not_processed (by intro m a hc; cases hc)]

end Lemmas

/-! ## Claim theorems -/

/-- Claim C2: for every run, a posting's identifier is added to the
Seen-Set if and only if that posting was fully processed in that run — it
passed the dedup and distance checks, its description fetch succeeded and
its scoring succeeded (fullyProcessedCheck states exactly these four
conditions and no threshold condition); postings skipped by dedup, the
distance filter, a fetch failure or a scoring failure never mutate the
Seen-Set. -/
theorem claim_C2_seen_iff_fully_processed
    (S : Settings) (env : Env) (tc : Option Coord)
    (initSeen : List String) (listings : List JobListing) (saveOk : Bool)
    (out : RunOutput)
    (hrun : run S env tc initSeen listings saveOk = .ok out) :
    ∀ u, u ∈ out.seen ↔ u ∈ initSeen ∨
      markedDuring S env tc initSeen listings u = true := by
  obtain ⟨st, hl, rfl⟩ := run_ok hrun
  intro u
  simpa using runLoop_seen hl u

/-- Witness for claim C2 on a concrete run: the fully processed posting u1
is newly marked seen, the fetch-failed posting u3 is not. -/
theorem claim_C2_witness :
    (("u1" ∈ (runOk (run SW envW none ["u0"] [lw0, lw1, lw3] true)).seen) ↔
      ("u1" ∈ ["u0"] ∨
        markedDuring SW envW none ["u0"] [lw0, lw1, lw3] "u1" = true))
    ∧ markedDuring SW envW none ["u0"] [lw0, lw1, lw3] "u1" = true
    ∧ markedDuring SW envW none ["u0"] [lw0, lw1, lw3] "u3" = false
    ∧ "u3" ∉ (runOk (run SW envW none ["u0"] [lw0, lw1, lw3] true)).seen := by
  refine ⟨?_, by decide, by decide, by decide⟩
  exact claim_C2_seen_iff_fully_processed SW envW none ["u0"]
    [lw0, lw1, lw3] true (runOk (run SW envW none ["u0"] [lw0, lw1, lw3] true))
    rfl "u1"

/-- Claim C1 (code-bug evidence): a navigation/timeout failure of the
Selenium-based Description Fetcher raises a WebDriverException, which
run() does not catch (it catches requests.RequestException only, a type
the fetcher never raises), so the run aborts and the evaluations of the
remaining postings are lost, instead of skipping that posting.  The third
conjunct shows the intended non-fatal skip behaviour does occur for the
exception type run() does catch. -/
theorem claim_C1_uncaught_fetch_error_aborts_run :
    errOf (run SW envW none [] [lw1, lwX, lw2] true) = some "uX"
    ∧ resultUrlsOf (run SW envW none [] [lw1, lwX, lw2] true) = none
    ∧ resultUrlsOf (run SW envW none [] [lw1, lw3, lw2] true)
        = some ["u1", "u2"] := by
  refine ⟨by decide, by decide, by decide⟩

/-- Claim C3: a posting skipped by the dedup check (rescan override unset
and URL already seen) causes no invocation and no state change at all
(the iteration returns the state unchanged); and, for a feed with unique
URLs, every posting newly marked seen during a completed run has exactly
one fetch invocation and exactly one scoring invocation in the trace. -/
theorem claim_C3_dedup_exclusivity :
    (∀ (S : Settings) (env : Env) (tc : Option Coord) (st : RunState)
      (l : JobListing),
      S.rescan_all_jobs = false → l.url ∈ st.seen →
        processOne S env tc st l = .ok st)
    ∧ (∀ (S : Settings) (env : Env) (tc : Option Coord)
        (initSeen : List String) (listings : List JobListing)
        (saveOk : Bool) (out : RunOutput) (u : String),
        run S env tc initSeen listings saveOk = .ok out →
        (listings.map (fun l => l.url)).Nodup →
        u ∈ out.seen → u ∉ initSeen →
          countEvent (.fetch u) out.events = 1 ∧
          countEvent (.score u) out.events = 1) := by
  constructor
  · intro S env tc st l hre hmem
    have hstep : stepOf S env tc st.seen l = .skipDedup := by
      unfold stepOf
      rw [if_pos ⟨hre, hmem⟩]
    unfold processOne
    rw [hstep]
    show Except.ok (stepState S st l .skipDedup) = _
    unfold stepState stepEvents
    simp
  · intro S env tc initSeen listings saveOk out u hrun hnd hseen hinit
    obtain ⟨st, hl, rfl⟩ := run_ok hrun
    have h := runLoop_count_once hl hnd hinit (by simpa using hseen)
    simpa [countEvent] using h

/-- Witness for claim C3: the already-seen posting u0 is skipped with the
state unchanged; the newly marked posting u1 has exactly one fetch and one
score invocation in the trace of a concrete completed run. -/
theorem claim_C3_witness :
    processOne SW envW none ⟨["u0"], [], [], [], []⟩ lw0
      = .ok ⟨["u0"], [], [], [], []⟩
    ∧ countEvent (.fetch "u1")
        (runOk (run SW envW none ["u0"] [lw0, lw1, lw3] true)).events = 1
    ∧ countEvent (.score "u1")
        (runOk (run SW envW none ["u0"] [lw0, lw1, lw3] true)).events = 1 := by
  refine ⟨?_, ?_, ?_⟩
  · exact claim_C3_dedup_exclusivity.1 SW envW none ⟨["u0"], [], [], [], []⟩
      lw0 (by decide) (by decide)
  · exact (claim_C3_dedup_exclusivity.2 SW envW none ["u0"] [lw0, lw1, lw3]
      true (runOk (run SW envW none ["u0"] [lw0, lw1, lw3] true)) "u1"
      rfl (by decide) (by decide) (by decide)).1
  · exact (claim_C3_dedup_exclusivity.2 SW envW none ["u0"] [lw0, lw1, lw3]
      true (runOk (run SW envW none ["u0"] [lw0, lw1, lw3] true)) "u1"
      rfl (by decide) (by decide) (by decide)).2

/-- Claim C10: the fixed pacing delay fires exactly once per fully
processed posting (whatever its score), in processing order — the sleep
events of a completed run are in one-to-one ordered correspondence with
the returned evaluations — so postings skipped by dedup, distance, fetch
failure or scoring failure never reach the delay. -/
theorem claim_C10_pacing_delay
    (S : Settings) (env : Env) (tc : Option Coord)
    (initSeen : List String) (listings : List JobListing) (saveOk : Bool)
    (out : RunOutput)
    (hrun : run S env tc initSeen listings saveOk = .ok out) :
    sleepUrls out.events = out.result.map (fun m => m.listing.url) := by
  obtain ⟨st, hl, rfl⟩ := run_ok hrun
  simpa using runLoop_sleep hl (by simp [sleepUrls])

/-- Witness for claim C10 on a concrete run with one dedup skip, one fully
processed posting and one fetch failure: exactly one sleep, for the
processed posting. -/
theorem claim_C10_witness :
    sleepUrls (runOk (run SW envW none ["u0"] [lw0, lw1, lw3] true)).events
      = ["u1"]
    ∧ sleepUrls
        (runOk (run SW envW none ["u0"] [lw0, lw1, lw3] true)).events
      = (runOk (run SW envW none ["u0"] [lw0, lw1, lw3] true)).result.map
          (fun m => m.listing.url) :=
  ⟨by decide,
   claim_C10_pacing_delay SW envW none ["u0"] [lw0, lw1, lw3] true
     (runOk (run SW envW none ["u0"] [lw0, lw1, lw3] true)) rfl⟩

/-- Claim C4: whatever score value the upstream model returns, the score
stored in score_job's payload — and hence in every Evaluation a completed
run returns — lies in [0, 100]. -/
theorem claim_C4_score_clamped :
    (∀ (r : LLMResponse) (p : ScorePayload),
      score_job r = some p → 0 ≤ p.score ∧ p.score ≤ 100)
    ∧ (∀ (S : Settings) (env : Env) (tc : Option Coord)
        (initSeen : List String) (listings : List JobListing)
        (saveOk : Bool) (out : RunOutput),
        run S env tc initSeen listings saveOk = .ok out →
        ∀ m ∈ out.result, 0 ≤ m.score ∧ m.score ≤ 100) := by
  constructor
  · intro r p h
    exact score_job_bounds h
  · intro S env tc initSeen listings saveOk out hrun
    obtain ⟨st, hl, rfl⟩ := run_ok hrun
    intro m hm
    exact runLoop_scores hl (by intro m2 hm2; cases hm2) m (by simpa using hm)

/-- Witness for claim C4: the model values -5 and 150 are clamped to 0 and
100, and a concrete run whose model returned 150 and -5 stores the clamped
scores in its evaluations. -/
theorem claim_C4_witness :
    (0 ≤ (⟨0, "neg", none⟩ : ScorePayload).score
      ∧ (⟨0, "neg", none⟩ : ScorePayload).score ≤ 100)
    ∧ (0 ≤ (⟨100, "over", none⟩ : ScorePayload).score
      ∧ (⟨100, "over", none⟩ : ScorePayload).score ≤ 100)
    ∧ (0 ≤ ((runOk (run SW envW none [] [lw5, lw6] true)).result.getD 0
          dummyMatch).score
      ∧ ((runOk (run SW envW none [] [lw5, lw6] true)).result.getD 0
          dummyMatch).score ≤ 100)
    ∧ ((runOk (run SW envW none [] [lw5, lw6] true)).result.getD 0
        dummyMatch).score = 100
    ∧ ((runOk (run SW envW none [] [lw5, lw6] true)).result.getD 1
        dummyMatch).score = 0 := by
  refine ⟨?_, ?_, ?_, by decide, by decide⟩
  · exact claim_C4_score_clamped.1 (.scored (-5) "neg" none) ⟨0, "neg", none⟩
      (by decide)
  · exact claim_C4_score_clamped.1 (.scored 150 "over" none)
      ⟨100, "over", none⟩ (by decide)
  · exact claim_C4_score_clamped.2 SW envW none [] [lw5, lw6] true
      (runOk (run SW envW none [] [lw5, lw6] true)) rfl
      ((runOk (run SW envW none [] [lw5, lw6] true)).result.getD 0 dummyMatch)
      (by decide)

/-- Claim C5: after a completed run, (1) an evaluation records a cover
letter exactly when its score is at or above the threshold, cover letters
are enabled, the Letter Generator returned text, and writing the file
succeeded; (2) a letter artifact exists for a posting exactly when its
evaluation records the letter's path; (3) every Letter-Generator
invocation is for a posting whose score met the threshold with letters
enabled — so a below-threshold posting never causes one. -/
theorem claim_C5_threshold_gating
    (S : Settings) (env : Env) (tc : Option Coord)
    (initSeen : List String) (listings : List JobListing) (saveOk : Bool)
    (out : RunOutput)
    (hrun : run S env tc initSeen listings saveOk = .ok out) :
    (∀ m ∈ out.result, (m.cover_letter_path.isSome = true) ↔
      (S.score_threshold ≤ m.score ∧ S.cover_letters = true ∧
        (env.letterText m.listing).isSome = true ∧
        env.writeOk m.listing = true))
    ∧ (∀ u p, (u, p) ∈ out.letters ↔ ∃ m, m ∈ out.result ∧
        m.listing.url = u ∧ m.cover_letter_path = some p)
    ∧ (∀ u, Event.letter u ∈ out.events → ∃ m, m ∈ out.result ∧
        m.listing.url = u ∧ S.score_threshold ≤ m.score ∧
        S.cover_letters = true) := by
  obtain ⟨st, hl, rfl⟩ := run_ok hrun
  have h0 : CoverInv S env ⟨initSeen, [], [], [], []⟩ := by
    refine ⟨?_, ?_, ?_⟩
    · intro m hm; cases hm
    · intro u p
      constructor
      · intro hu; cases hu
      · rintro ⟨m, hm, _, _⟩; cases hm
    · intro u hu; cases hu
  obtain ⟨h1, h2, h3⟩ := runLoop_cover hl h0
  exact ⟨fun m hm => h1 m hm, h2, h3⟩

/-- Witness for claim C5 on a concrete run with one above-threshold and
one below-threshold posting: the first carries a letter path and its file
exists, the second does not, and the only Letter-Generator invocation is
for the first. -/
theorem claim_C5_witness :
    (((runOk (run SW envW none [] [lw1, lw2] true)).result.getD 0
        dummyMatch).cover_letter_path.isSome = true ↔
      (SW.score_threshold ≤ ((runOk (run SW envW none [] [lw1, lw2]
          true)).result.getD 0 dummyMatch).score
        ∧ SW.cover_letters = true
        ∧ (envW.letterText ((runOk (run SW envW none [] [lw1, lw2]
            true)).result.getD 0 dummyMatch).listing).isSome = true
        ∧ envW.writeOk ((runOk (run SW envW none [] [lw1, lw2]
            true)).result.getD 0 dummyMatch).listing = true))
    ∧ (("u1", "cover_letters/T1_A_20250101_000000.txt") ∈
        (runOk (run SW envW none [] [lw1, lw2] true)).letters ↔
      ∃ m, m ∈ (runOk (run SW envW none [] [lw1, lw2] true)).result ∧
        m.listing.url = "u1" ∧
        m.cover_letter_path = some "cover_letters/T1_A_20250101_000000.txt")
    ∧ ((runOk (run SW envW none [] [lw1, lw2] true)).result.getD 1
        dummyMatch).cover_letter_path = none
    ∧ countEvent (.letter "u1")
        (runOk (run SW envW none [] [lw1, lw2] true)).events = 1
    ∧ countEvent (.letter "u2")
        (runOk (run SW envW none [] [lw1, lw2] true)).events = 0 := by
  refine ⟨?_, ?_, by decide, by decide, by decide⟩
  · exact (claim_C5_threshold_gating SW envW none [] [lw1, lw2] true
      (runOk (run SW envW none [] [lw1, lw2] true)) rfl).1
      ((runOk (run SW envW none [] [lw1, lw2] true)).result.getD 0 dummyMatch)
      (by decide)
  · exact (claim_C5_threshold_gating SW envW none [] [lw1, lw2] true
      (runOk (run SW envW none [] [lw1, lw2] true)) rfl).2.1
      "u1" "cover_letters/T1_A_20250101_000000.txt"

/-- Counterexample to claim C6 as stated: with a target location and a
maximum distance D = 10 both configured, but the target failing to
geocode at startup (so target_coords is None), a posting whose own
location also fails to geocode is NOT skipped — it is fetched, scored and
returned — because the run-loop guard tests the resolved coordinates, not
the configuration.  (The guard is likewise inactive when D = 0, since the
Python truthiness test treats 0.0 as unset.) -/
theorem claim_C6_counterexample :
    S6.target_location = some "TargetTown"
    ∧ S6.max_distance_km = some 10
    ∧ init_location_filtering S6.target_location S6.max_distance_km
        envW.geocode = none
    ∧ envW.geocode lbad.city = none
    ∧ resultUrlsOf (run S6 envW
        (init_location_filtering S6.target_location S6.max_distance_km
          envW.geocode) [] [lbad] true) = some ["ub"]
    ∧ distanceGate SW envW none "c1" = some none := by
  refine ⟨rfl, rfl, by decide, by decide, by decide, by decide⟩

/-- Claim C6 as amended: when the target location resolved to coordinates
t at startup and a nonzero maximum distance D is configured, a posting
whose location fails to geocode, or whose resolved distance exceeds D, is
skipped with the state entirely unchanged (no fetch, no scoring, no
evaluation, no seen mutation); a posting with resolved distance d ≤ D
that passes dedup and whose fetch and scoring succeed is processed with
distance d recorded in its evaluation; and when the guard is inactive (no
resolved target, or D absent or zero) every evaluation of a completed run
has an absent distance. -/
theorem claim_C6_distance_filter_amended :
    (∀ (S : Settings) (env : Env) (st : RunState) (l : JobListing)
       (t : Coord) (dmax : Rat),
       S.max_distance_km = some dmax → dmax ≠ 0 →
       _get_location_distance (some t) env l.city = none →
       processOne S env (some t) st l = .ok st)
    ∧ (∀ (S : Settings) (env : Env) (st : RunState) (l : JobListing)
       (t : Coord) (dmax d : Rat),
       S.max_distance_km = some dmax → dmax ≠ 0 →
       _get_location_distance (some t) env l.city = some d → dmax < d →
       processOne S env (some t) st l = .ok st)
    ∧ (∀ (S : Settings) (env : Env) (st : RunState) (l : JobListing)
       (t : Coord) (dmax d : Rat) (desc : String) (reqs : List String)
       (p : ScorePayload),
       S.max_distance_km = some dmax → dmax ≠ 0 →
       (S.rescan_all_jobs = true ∨ l.url ∉ st.seen) →
       _get_location_distance (some t) env l.city = some d → d ≤ dmax →
       env.fetchResult l = .ok desc reqs →
       score_job (env.llmResponse l) = some p →
       ∃ st2 m, processOne S env (some t) st l = .ok st2 ∧
         st2.all_jobs = st.all_jobs ++ [m] ∧ m.listing = l ∧
         m.distance_km = some d ∧ m.score = p.score ∧
         st2.seen = insertSeen l.url st.seen)
    ∧ (∀ (S : Settings) (env : Env) (tc : Option Coord)
       (initSeen : List String) (listings : List JobListing)
       (saveOk : Bool) (out : RunOutput),
       (tc = none ∨ S.max_distance_km = none ∨ S.max_distance_km = some 0) →
       run S env tc initSeen listings saveOk = .ok out →
       ∀ m ∈ out.result, m.distance_km = none) := by
  have hgate_none : ∀ (S : Settings) (env : Env) (t : Coord)
      (city : String) (dmax : Rat), S.max_distance_km = some dmax →
      dmax ≠ 0 → _get_location_distance (some t) env city = none →
      distanceGate S env (some t) city = none := by
    intro S env t city dmax hmax hdz hgd
    unfold distanceGate
    rw [hmax]
    simp only [hgd, if_neg hdz]
  have hgate_far : ∀ (S : Settings) (env : Env) (t : Coord)
      (city : String) (dmax d : Rat), S.max_distance_km = some dmax →
      dmax ≠ 0 → _get_location_distance (some t) env city = some d →
      dmax < d → distanceGate S env (some t) city = none := by
    intro S env t city dmax d hmax hdz hgd hlt
    unfold distanceGate
    rw [hmax]
    simp only [hgd, if_neg hdz, if_pos hlt]
  have hskip : ∀ (S : Settings) (env : Env) (t : Coord) (st : RunState)
      (l : JobListing), distanceGate S env (some t) l.city = none →
      processOne S env (some t) st l = .ok st := by
    intro S env t st l hdg
    by_cases hdd : S.rescan_all_jobs = false ∧ l.url ∈ st.seen
    · exact processOne_dedup_skip hdd.1 hdd.2
    · rw [processOne_of_step (stepOf_skipDistance_intro hdd hdg)
        (by intro hc; cases hc),
        stepState_eq_self (by intro m a hc; cases hc)
          (show stepEvents S l .skipDistance = [] from rfl)]
  refine ⟨?_, ?_, ?_, ?_⟩
  · intro S env st l t dmax hmax hdz hgd
    exact hskip S env t st l (hgate_none S env t l.city dmax hmax hdz hgd)
  · intro S env st l t dmax d hmax hdz hgd hlt
    exact hskip S env t st l (hgate_far S env t l.city dmax d hmax hdz hgd hlt)
  · intro S env st l t dmax d desc reqs p hmax hdz hdedup hgd hle hf hs
    have hdd : ¬(S.rescan_all_jobs = false ∧ l.url ∈ st.seen) := by
      rcases hdedup with h | h
      · intro hc; rw [h] at hc; cases hc.1
      · intro hc; exact h hc.2
    have hdg : distanceGate S env (some t) l.city = some (some d) := by
      unfold distanceGate
      rw [hmax]
      simp only [hgd, if_neg hdz, if_neg (not_lt.mpr hle)]
    have hstep := stepOf_processed_intro hdd hdg hf hs
    refine ⟨stepState S st l (.processed
        ⟨l, p.score, explanationOf p, desc,
          (if S.score_threshold ≤ p.score ∧ S.cover_letters = true
           then _generate_cover_letter_pdf S env l
           else none), some d⟩
        (!reqs.isEmpty)),
      ⟨l, p.score, explanationOf p, desc,
        (if S.score_threshold ≤ p.score ∧ S.cover_letters = true
         then _generate_cover_letter_pdf S env l
         else none), some d⟩,
      processOne_of_step hstep (by intro hc; cases hc),
      ?_, rfl, rfl, rfl, ?_⟩
    · simp [stepState]
    · simp [stepState]
  · intro S env tc initSeen listings saveOk out hguard hrun
    obtain ⟨st, hl, rfl⟩ := run_ok hrun
    intro m hm
    exact runLoop_dist_none hguard hl (by intro m2 hm2; cases hm2) m
      (by simpa using hm)

/-- Witness for the amended claim C6: with the target resolved to the
origin and D = 10, the ungeocodable posting and the 100-km posting are
skipped with the state unchanged, the 5-km posting is evaluated with
distance 5 recorded, and with no filter configured the evaluation's
distance is absent. -/
theorem claim_C6_witness :
    processOne S6 env6 (some (0, 0)) ⟨[], [], [], [], []⟩ lbad
      = .ok ⟨[], [], [], [], []⟩
    ∧ processOne S6 env6 (some (0, 0)) ⟨[], [], [], [], []⟩ lfar
      = .ok ⟨[], [], [], [], []⟩
    ∧ resultUrlsOf (run S6 env6 (some (0, 0)) [] [lnear, lfar, lbad] true)
      = some ["un"]
    ∧ ((runOk (run S6 env6 (some (0, 0)) [] [lnear, lfar, lbad]
        true)).result.getD 0 dummyMatch).distance_km = some 5
    ∧ ((runOk (run SW envW none [] [lw1] true)).result.getD 0
        dummyMatch).distance_km = none := by
  refine ⟨?_, ?_, by decide, by decide, ?_⟩
  · exact claim_C6_distance_filter_amended.1 S6 env6 ⟨[], [], [], [], []⟩
      lbad (0, 0) 10 rfl (by norm_num) (by decide)
  · exact claim_C6_distance_filter_amended.2.1 S6 env6 ⟨[], [], [], [], []⟩
      lfar (0, 0) 10 100 rfl (by norm_num) (by decide) (by norm_num)
  · exact claim_C6_distance_filter_amended.2.2.2 SW envW none [] [lw1] true
      (runOk (run SW envW none [] [lw1] true)) (Or.inl rfl) rfl
      ((runOk (run SW envW none [] [lw1] true)).result.getD 0 dummyMatch)
      (by decide)

/-- Counterexample to claim C7 as stated: after a first run over a
one-posting feed whose fetch fails with the caught exception, the posting
was not fully processed, so its identifier is NOT in the Seen-Set carried
into the second run — the claim's assertion that after one run every feed
identifier is already in the Seen-Set is false — although the second
run's result sequence is still empty. -/
theorem claim_C7_counterexample :
    seenOf (run SW envW none [] [lw3] true) = some []
    ∧ lw3.url = "u3"
    ∧ "u3" ∉ (runOk (run SW envW none [] [lw3] true)).seen
    ∧ resultUrlsOf (run SW envW none
        (runOk (run SW envW none [] [lw3] true)).seen [lw3] true)
      = some [] := by
  refine ⟨by decide, rfl, by decide, by decide⟩

/-- Claim C7 as amended: rerunning the pipeline over the same feed with
the same external behaviour and the rescan override unset, starting from
the Seen-Set a completed first run left behind, yields no evaluations at
all (so the above-threshold export input is empty as well), and leaves
the Seen-Set unchanged — each posting is either already in the Seen-Set
(it was fully processed the first time) or deterministically fails or
skips the same check again; identifiers of postings skipped by the
distance filter or failed in fetch or scoring are not in the Seen-Set and
are retried. -/
theorem claim_C7_idempotence_amended
    (S : Settings) (env : Env) (tc : Option Coord)
    (initSeen : List String) (listings : List JobListing)
    (so1 so2 : Bool) (out1 : RunOutput)
    (hre : S.rescan_all_jobs = false)
    (hrun1 : run S env tc initSeen listings so1 = .ok out1) :
    ∃ out2, run S env tc out1.seen listings so2 = .ok out2 ∧
      out2.result = [] ∧ out2.matchesAbove = [] ∧ out2.letters = [] ∧
      out2.seen = out1.seen := by
  obtain ⟨st, hl, rfl⟩ := run_ok hrun1
  obtain ⟨st2f, hl2, hs, ha, hm, hlet⟩ := idem_loop hre hl
    (show (⟨st.seen, [], [], [], []⟩ : RunState).seen = st.seen from rfl)
  refine ⟨⟨st2f.all_jobs, st2f.matchesAbove, st2f.seen,
      if so2 then some st2f.seen else none, st2f.letters, st2f.events⟩,
    ?_, by simpa using ha, by simpa using hm, by simpa using hlet,
    by simpa using hs⟩
  unfold run
  rw [hl2]

/-- Witness for the amended claim C7: rerunning a concrete mixed run
(one dedup skip, one success, one fetch failure) from its final seen set
produces no evaluations and the same seen set. -/
theorem claim_C7_witness :
    resultUrlsOf (run SW envW none
        (runOk (run SW envW none ["u0"] [lw0, lw1, lw3] true)).seen
        [lw0, lw1, lw3] true) = some []
    ∧ seenOf (run SW envW none
        (runOk (run SW envW none ["u0"] [lw0, lw1, lw3] true)).seen
        [lw0, lw1, lw3] true)
      = some (runOk (run SW envW none ["u0"] [lw0, lw1, lw3] true)).seen := by
  obtain ⟨out2, h1, h2, _, _, h5⟩ :=
    claim_C7_idempotence_amended SW envW none ["u0"] [lw0, lw1, lw3]
      true true (runOk (run SW envW none ["u0"] [lw0, lw1, lw3] true))
      rfl rfl
  constructor
  · rw [show resultUrlsOf (run SW envW none
        (runOk (run SW envW none ["u0"] [lw0, lw1, lw3] true)).seen
        [lw0, lw1, lw3] true) = some (out2.result.map (fun m => m.listing.url))
      from by rw [h1]; rfl]
    rw [h2]
    rfl
  · rw [show seenOf (run SW envW none
        (runOk (run SW envW none ["u0"] [lw0, lw1, lw3] true)).seen
        [lw0, lw1, lw3] true) = some out2.seen from by rw [h1]; rfl]
    rw [h5]

/-- Counterexample to claim C8 as stated: a failure writing the
above-threshold JSON export is caught only by main's top-level handler,
which exits non-zero — the run is aborted and the HTML summary is never
attempted — contradicting the claim that every persistence error leaves
the run completing both export artifacts. -/
theorem claim_C8_counterexample :
    (mainExports SW false true (run SW envW none [] [lw1] true)).exitCode = 1
    ∧ (mainExports SW false true (run SW envW none [] [lw1] true)).htmlExport
      = none
    ∧ resultUrlsOf (run SW envW none [] [lw1] true) = some ["u1"] := by
  refine ⟨by decide, by decide, by decide⟩

/-- Claim C8 as amended: a Seen-Set save failure is non-fatal — run()
still returns the same results, differing only in the persisted artifact,
and the export phase is unaffected; an export-write failure, however,
aborts through main's top-level handler with exit code 1: a JSON write
failure produces no artifact and the HTML summary is not attempted, an
HTML write failure leaves the already-written JSON artifact; only with
both writes succeeding does the process exit 0 with both artifacts. -/
theorem claim_C8_persistence_errors_amended :
    (∀ (S : Settings) (env : Env) (tc : Option Coord)
       (initSeen : List String) (listings : List JobListing)
       (out : RunOutput),
       run S env tc initSeen listings true = .ok out →
         run S env tc initSeen listings false =
           .ok { out with savedSeen := none }
         ∧ ∀ jsonOk htmlOk,
           mainExports S jsonOk htmlOk (run S env tc initSeen listings false)
             = mainExports S jsonOk htmlOk
                 (run S env tc initSeen listings true))
    ∧ (∀ (S : Settings) (r : Except String RunOutput) (out : RunOutput),
       r = .ok out →
         mainExports S false true r = ⟨1, none, none⟩
         ∧ mainExports S true false r =
             ⟨1, some (out.result.filter
                 (fun j => S.score_threshold ≤ j.score)), none⟩
         ∧ mainExports S true true r =
             ⟨0, some (out.result.filter
                 (fun j => S.score_threshold ≤ j.score)),
               some out.result⟩) := by
  constructor
  · intro S env tc initSeen listings out hrun
    refine ⟨run_saveOk_false hrun, ?_⟩
    intro jsonOk htmlOk
    rw [hrun, run_saveOk_false hrun]
    rfl
  · intro S r out hr
    subst hr
    exact ⟨rfl, rfl, rfl⟩

/-- Witness for the amended claim C8 on a concrete completed run: the
save failure changes nothing the caller or the exports see; a JSON write
failure yields exit 1 with no artifacts; an HTML write failure yields
exit 1 with only the JSON artifact; both writes succeeding yields exit 0
with both artifacts. -/
theorem claim_C8_witness :
    (mainExports SW false true (run SW envW none [] [lw1, lw2] false)
      = mainExports SW false true (run SW envW none [] [lw1, lw2] true))
    ∧ mainExports SW false true (run SW envW none [] [lw1, lw2] true)
      = ⟨1, none, none⟩
    ∧ mainExports SW true false (run SW envW none [] [lw1, lw2] true)
      = ⟨1, some ((runOk (run SW envW none [] [lw1, lw2] true)).result.filter
          (fun j => SW.score_threshold ≤ j.score)), none⟩
    ∧ mainExports SW true true (run SW envW none [] [lw1, lw2] true)
      = ⟨0, some ((runOk (run SW envW none [] [lw1, lw2] true)).result.filter
          (fun j => SW.score_threshold ≤ j.score)),
        some (runOk (run SW envW none [] [lw1, lw2] true)).result⟩ := by
  refine ⟨?_, ?_, ?_, ?_⟩
  · exact (claim_C8_persistence_errors_amended.1 SW envW none [] [lw1, lw2]
      (runOk (run SW envW none [] [lw1, lw2] true)) rfl).2 false true
  · exact (claim_C8_persistence_errors_amended.2 SW
      (run SW envW none [] [lw1, lw2] true)
      (runOk (run SW envW none [] [lw1, lw2] true)) rfl).1
  · exact (claim_C8_persistence_errors_amended.2 SW
      (run SW envW none [] [lw1, lw2] true)
      (runOk (run SW envW none [] [lw1, lw2] true)) rfl).2.1
  · exact (claim_C8_persistence_errors_amended.2 SW
      (run SW envW none [] [lw1, lw2] true)
      (runOk (run SW envW none [] [lw1, lw2] true)) rfl).2.2

/-- Claim C9: the Seen-Set store fails soft — loading a missing or
malformed file (and a well-formed file without the urls key) yields the
empty set and cannot fail the run, and a save failure is never raised to
the caller: the run still completes with the same return value, differing
only in that nothing was persisted. -/
theorem claim_C9_seen_store_fails_soft :
    (_load_scanned_urls .missing = []
      ∧ _load_scanned_urls .malformed = []
      ∧ _load_scanned_urls (.valid none) = [])
    ∧ (∀ (S : Settings) (env : Env) (tc : Option Coord)
       (initSeen : List String) (listings : List JobListing)
       (out : RunOutput),
       run S env tc initSeen listings true = .ok out →
         run S env tc initSeen listings false =
           .ok { out with savedSeen := none }) := by
  refine ⟨⟨rfl, rfl, rfl⟩, ?_⟩
  intro S env tc initSeen listings out hrun
  exact run_saveOk_false hrun

/-- Witness for claim C9: on a concrete run, a save failure still returns
the same completed output with only the persisted artifact absent. -/
theorem claim_C9_witness :
    run SW envW none ["u0"] [lw0, lw1, lw3] false
      = .ok { runOk (run SW envW none ["u0"] [lw0, lw1, lw3] true) with
          savedSeen := none } :=
  claim_C9_seen_store_fails_soft.2 SW envW none ["u0"] [lw0, lw1, lw3]
    (runOk (run SW envW none ["u0"] [lw0, lw1, lw3] true)) rfl

end AIJobHunter

